import Mathlib

/-!
# Verification of `lib/utils/anchor_encoder.py` (3DSSD)

Shallow embedding, over exact real arithmetic, of the four anchor
encoders of the repository:

* `encode_angle2class_np` — angle discretizer (class id + residual);
* `encode_log_anchor` / `encode_log_anchor_np` — log-anchor encoder
  (graph and eager backends);
* `encode_dist_anchor` — distance-anchor encoder;
* `encode_dist_anchor_free` / `encode_dist_anchor_free_np` —
  anchor-free distance encoder (graph and eager backends).

The batched tensors of shape `[bs, points_num, 3]` are modelled
per element: a `Vec3` stands for one 3-component slice, and the
elementwise NumPy/TensorFlow arithmetic becomes componentwise real
arithmetic.  `np.mod` on a positive divisor is the real modulo
`rmod`, and `.astype(np.int)` is truncation toward zero `truncInt`.
-/

open Real

namespace AnchorEncoder

/-- `np.mod x y`: real modulo, `x - y * ⌊x / y⌋`.  For `y > 0` the
result lies in `[0, y)`, matching NumPy (result takes the divisor's
sign). -/
noncomputable def rmod (x y : ℝ) : ℝ := x - y * ⌊x / y⌋

/-- `.astype(np.int)`: truncation toward zero of a real number. -/
noncomputable def truncInt (x : ℝ) : ℤ := if 0 ≤ x then ⌊x⌋ else ⌈x⌉

/-- `angle = np.mod(angle, 2 * np.pi)` — the first line of
`encode_angle2class_np`. -/
noncomputable def angleNorm (angle : ℝ) : ℝ := rmod angle (2 * π)

/-- The assertion of `encode_angle2class_np`:
`np.all(np.logical_and(angle>=0, angle<=2*np.pi))` on the normalized
angle. -/
def angleAssert (angle : ℝ) : Prop :=
  0 ≤ angleNorm angle ∧ angleNorm angle ≤ 2 * π

/-- `angle_per_class = 2*np.pi/float(num_class)`. -/
noncomputable def anglePerClass (num_class : ℕ) : ℝ :=
  2 * π / (num_class : ℝ)

/-- `shifted_angle = (angle+angle_per_class/2)%(2*np.pi)`, applied to
the normalized angle. -/
noncomputable def shiftedAngle (angle : ℝ) (num_class : ℕ) : ℝ :=
  rmod (angleNorm angle + anglePerClass num_class / 2) (2 * π)

/-- `class_id = (shifted_angle/angle_per_class).astype(np.int)`. -/
noncomputable def classId (angle : ℝ) (num_class : ℕ) : ℤ :=
  truncInt (shiftedAngle angle num_class / anglePerClass num_class)

/-- `residual_angle = shifted_angle - (class_id * angle_per_class +
angle_per_class/2)`, then `residual_angle / (2 * np.pi / num_class)`. -/
noncomputable def residualAngle (angle : ℝ) (num_class : ℕ) : ℝ :=
  (shiftedAngle angle num_class -
      ((classId angle num_class : ℝ) * anglePerClass num_class +
        anglePerClass num_class / 2)) /
    (2 * π / (num_class : ℝ))

/-- `encode_angle2class_np(angle, num_class)`.  The `assert` is
modelled as a guard: the failure branch returns `none`, the normal
return is `some (class_id, residual_angle)`. -/
noncomputable def encode_angle2class_np (angle : ℝ) (num_class : ℕ) :
    Option (ℤ × ℝ) :=
  if 0 ≤ angleNorm angle ∧ angleNorm angle ≤ 2 * π then
    some (classId angle num_class, residualAngle angle num_class)
  else none

/-! ## Basic facts about `rmod` and `truncInt` -/

theorem rmod_eq_fract (x y : ℝ) (hy : y ≠ 0) :
    rmod x y = y * Int.fract (x / y) := by
  unfold rmod Int.fract
  field_simp

theorem rmod_nonneg (x y : ℝ) (hy : 0 < y) : 0 ≤ rmod x y := by
  rw [rmod_eq_fract x y hy.ne']
  exact mul_nonneg hy.le (Int.fract_nonneg _)

theorem rmod_lt (x y : ℝ) (hy : 0 < y) : rmod x y < y := by
  rw [rmod_eq_fract x y hy.ne']
  calc y * Int.fract (x / y) < y * 1 :=
        (mul_lt_mul_left hy).mpr (Int.fract_lt_one _)
    _ = y := mul_one y

theorem rmod_eq_self (x y : ℝ) (hy : 0 < y) (h0 : 0 ≤ x) (h1 : x < y) :
    rmod x y = x := by
  unfold rmod
  have hfloor : ⌊x / y⌋ = 0 := by
    rw [Int.floor_eq_zero_iff]
    constructor
    · exact div_nonneg h0 hy.le
    · rw [div_lt_one hy]; exact h1
  rw [hfloor]
  simp

theorem rmod_eq_sub (x y : ℝ) (hy : 0 < y) (h0 : y ≤ x) (h1 : x < 2 * y) :
    rmod x y = x - y := by
  unfold rmod
  have hfloor : ⌊x / y⌋ = 1 := by
    have h1' : x / y < 2 := by
      rw [div_lt_iff₀ hy]; linarith
    have h0' : (1 : ℝ) ≤ x / y := by
      rw [le_div_iff₀ hy]; linarith
    rw [Int.floor_eq_iff]
    constructor
    · exact_mod_cast h0'
    · push_cast
      linarith
  rw [hfloor]
  simp

theorem truncInt_of_nonneg (x : ℝ) (h : 0 ≤ x) : truncInt x = ⌊x⌋ := by
  unfold truncInt
  exact if_pos h

/-! ## The normalized angle, the shifted angle and the class id -/

theorem angleNorm_mem (θ : ℝ) : 0 ≤ angleNorm θ ∧ angleNorm θ < 2 * π := by
  have h2pi : (0 : ℝ) < 2 * π := by positivity
  exact ⟨rmod_nonneg θ (2 * π) h2pi, rmod_lt θ (2 * π) h2pi⟩

/-- The `assert` guard always succeeds, so `encode_angle2class_np`
always takes the `some` branch. -/
theorem encode_eq_some (θ : ℝ) (n : ℕ) :
    encode_angle2class_np θ n = some (classId θ n, residualAngle θ n) := by
  unfold encode_angle2class_np
  exact if_pos ⟨(angleNorm_mem θ).1, (angleNorm_mem θ).2.le⟩

theorem anglePerClass_pos (n : ℕ) (hn : 1 ≤ n) : 0 < anglePerClass n := by
  unfold anglePerClass
  have hn' : (0 : ℝ) < (n : ℝ) := by exact_mod_cast hn
  positivity

theorem shiftedAngle_mem (θ : ℝ) (n : ℕ) :
    0 ≤ shiftedAngle θ n ∧ shiftedAngle θ n < 2 * π := by
  have h2pi : (0 : ℝ) < 2 * π := by positivity
  exact ⟨rmod_nonneg _ _ h2pi, rmod_lt _ _ h2pi⟩

theorem classId_eq_floor (θ : ℝ) (n : ℕ) (hn : 1 ≤ n) :
    classId θ n = ⌊shiftedAngle θ n / anglePerClass n⌋ := by
  unfold classId
  exact truncInt_of_nonneg _
    (div_nonneg (shiftedAngle_mem θ n).1 (anglePerClass_pos n hn).le)

theorem classId_mem (θ : ℝ) (n : ℕ) (hn : 1 ≤ n) :
    0 ≤ classId θ n ∧ classId θ n < (n : ℤ) := by
  rw [classId_eq_floor θ n hn]
  have hw := anglePerClass_pos n hn
  constructor
  · exact Int.floor_nonneg.mpr
      (div_nonneg (shiftedAngle_mem θ n).1 hw.le)
  · rw [Int.floor_lt]
    have hnw : (n : ℝ) * anglePerClass n = 2 * π := by
      unfold anglePerClass
      have hn0 : (n : ℝ) ≠ 0 := by
        exact_mod_cast Nat.one_le_iff_ne_zero.mp hn
      field_simp
    rw [div_lt_iff₀ hw]
    push_cast
    rw [hnw]
    exact (shiftedAngle_mem θ n).2

/-! ## The residual -/

theorem residualAngle_eq_fract (θ : ℝ) (n : ℕ) (hn : 1 ≤ n) :
    residualAngle θ n =
      Int.fract (shiftedAngle θ n / anglePerClass n) - 1 / 2 := by
  have hw := anglePerClass_pos n hn
  have hw' : anglePerClass n ≠ 0 := hw.ne'
  unfold residualAngle Int.fract
  rw [classId_eq_floor θ n hn]
  have hdiv : 2 * π / (n : ℝ) = anglePerClass n := rfl
  rw [hdiv]
  unfold anglePerClass at *
  field_simp
  ring

theorem residualAngle_mem (θ : ℝ) (n : ℕ) (hn : 1 ≤ n) :
    -(1 / 2 : ℝ) ≤ residualAngle θ n ∧ residualAngle θ n < 1 / 2 := by
  rw [residualAngle_eq_fract θ n hn]
  have h0 := Int.fract_nonneg (shiftedAngle θ n / anglePerClass n)
  have h1 := Int.fract_lt_one (shiftedAngle θ n / anglePerClass n)
  constructor <;> linarith

/-! ## Periodicity -/

theorem angleNorm_add_int_mul_two_pi (θ : ℝ) (k : ℤ) :
    angleNorm (θ + 2 * π * (k : ℝ)) = angleNorm θ := by
  unfold angleNorm rmod
  have hpi : (2 : ℝ) * π ≠ 0 := by positivity
  have h : (θ + 2 * π * (k : ℝ)) / (2 * π) = θ / (2 * π) + (k : ℝ) := by
    field_simp
    ring
  rw [h, Int.floor_add_int]
  push_cast
  ring

theorem encode_angle2class_np_periodic (θ : ℝ) (k : ℤ) (n : ℕ) :
    encode_angle2class_np (θ + 2 * π * (k : ℝ)) n =
      encode_angle2class_np θ n := by
  simp only [encode_angle2class_np, classId, residualAngle, shiftedAngle,
    angleNorm_add_int_mul_two_pi]

/-! ## Concrete evaluations (`num_class = 4`) -/

theorem anglePerClass_four : anglePerClass 4 = π / 2 := by
  unfold anglePerClass
  push_cast
  ring

theorem encode_at_zero : encode_angle2class_np 0 4 = some (0, 0) := by
  have hpi := Real.pi_pos
  have hs : shiftedAngle 0 4 = π / 4 := by
    have ha : angleNorm 0 = 0 :=
      rmod_eq_self 0 (2 * π) (by positivity) le_rfl (by positivity)
    unfold shiftedAngle
    rw [ha, anglePerClass_four]
    rw [show (0 : ℝ) + π / 2 / 2 = π / 4 by ring]
    exact rmod_eq_self _ _ (by positivity) (by positivity) (by linarith)
  have hq : shiftedAngle 0 4 / anglePerClass 4 = 1 / 2 := by
    rw [hs, anglePerClass_four]
    rw [div_div_div_comm, div_self Real.pi_ne_zero]
    norm_num
  have hc : classId 0 4 = 0 := by
    unfold classId
    rw [hq, truncInt_of_nonneg _ (by norm_num)]
    rw [Int.floor_eq_zero_iff, Set.mem_Ico]
    constructor <;> norm_num
  have hr : residualAngle 0 4 = 0 := by
    rw [residualAngle_eq_fract 0 4 (by norm_num), hq,
      Int.fract_eq_self.mpr ⟨by norm_num, by norm_num⟩]
    norm_num
  rw [encode_eq_some, hc, hr]

theorem encode_at_pi : encode_angle2class_np π 4 = some (2, 0) := by
  have hpi := Real.pi_pos
  have hs : shiftedAngle π 4 = 5 * π / 4 := by
    have ha : angleNorm π = π :=
      rmod_eq_self π (2 * π) (by positivity) hpi.le (by linarith)
    unfold shiftedAngle
    rw [ha, anglePerClass_four]
    rw [show π + π / 2 / 2 = 5 * π / 4 by ring]
    exact rmod_eq_self _ _ (by positivity) (by positivity) (by linarith)
  have hq : shiftedAngle π 4 / anglePerClass 4 = 5 / 2 := by
    rw [hs, anglePerClass_four]
    rw [div_div_div_comm, mul_div_assoc, div_self Real.pi_ne_zero]
    norm_num
  have hfl : ⌊(5 : ℝ) / 2⌋ = 2 := by
    rw [Int.floor_eq_iff]
    constructor <;> norm_num
  have hc : classId π 4 = 2 := by
    unfold classId
    rw [hq, truncInt_of_nonneg _ (by norm_num), hfl]
  have hr : residualAngle π 4 = 0 := by
    rw [residualAngle_eq_fract π 4 (by norm_num), hq,
      ← Int.self_sub_floor, hfl]
    norm_num
  rw [encode_eq_some, hc, hr]

theorem encode_at_fifteen_pi_div_eight :
    encode_angle2class_np (15 * π / 8) 4 = some (0, -(1 / 4)) := by
  have hpi := Real.pi_pos
  have hs : shiftedAngle (15 * π / 8) 4 = π / 8 := by
    have ha : angleNorm (15 * π / 8) = 15 * π / 8 :=
      rmod_eq_self _ (2 * π) (by positivity) (by positivity) (by linarith)
    unfold shiftedAngle
    rw [ha, anglePerClass_four]
    rw [show 15 * π / 8 + π / 2 / 2 = 17 * π / 8 by ring]
    rw [rmod_eq_sub _ _ (by positivity) (by linarith) (by linarith)]
    ring
  have hq : shiftedAngle (15 * π / 8) 4 / anglePerClass 4 = 1 / 4 := by
    rw [hs, anglePerClass_four]
    rw [div_div_div_comm, div_self Real.pi_ne_zero]
    norm_num
  have hc : classId (15 * π / 8) 4 = 0 := by
    unfold classId
    rw [hq, truncInt_of_nonneg _ (by norm_num)]
    rw [Int.floor_eq_zero_iff, Set.mem_Ico]
    constructor <;> norm_num
  have hr : residualAngle (15 * π / 8) 4 = -(1 / 4) := by
    rw [residualAngle_eq_fract _ 4 (by norm_num), hq,
      Int.fract_eq_self.mpr ⟨by norm_num, by norm_num⟩]
    norm_num
  rw [encode_eq_some, hc, hr]

/-! ## 3-component tensors

One `[·, ·, 3]` slice of the batched tensors.  For a center the
components are `(x, y, z)`; for an offset they are read as
`(l, h, w)` (length, height, width). -/

structure Vec3 where
  x : ℝ
  y : ℝ
  z : ℝ

/-- Elementwise subtraction (`-` of NumPy / TensorFlow tensors). -/
noncomputable def Vec3.sub (a b : Vec3) : Vec3 :=
  ⟨a.x - b.x, a.y - b.y, a.z - b.z⟩

/-- Elementwise division (`/` of NumPy / TensorFlow tensors). -/
noncomputable def Vec3.div (a b : Vec3) : Vec3 :=
  ⟨a.x / b.x, a.y / b.y, a.z / b.z⟩

/-- Euclidean norm of a stacked / concatenated pair along the last
axis (`tf.norm` / `np.linalg.norm` on a 2-vector). -/
noncomputable def norm2 (a b : ℝ) : ℝ := Real.sqrt (a ^ 2 + b ^ 2)

/-! ## Log-anchor encoder -/

/-- `encode_log_anchor` (TensorFlow backend): `tf.unstack` the last
axis into components, compute, `tf.stack` the results. -/
noncomputable def encode_log_anchor (gt_ctr gt_offset anchor_ctr
    anchor_offset : Vec3) : Vec3 × Vec3 :=
  let gt_l := gt_offset.x
  let gt_h := gt_offset.y
  let gt_w := gt_offset.z
  let anchor_l := anchor_offset.x
  let anchor_h := anchor_offset.y
  let anchor_w := anchor_offset.z
  let anchor_d := norm2 anchor_l anchor_w
  let encode_x := (gt_ctr.x - anchor_ctr.x) / anchor_d
  let encode_y := (gt_ctr.y - anchor_ctr.y) / anchor_h
  let encode_z := (gt_ctr.z - anchor_ctr.z) / anchor_d
  let encode_l := Real.log (gt_l / anchor_l)
  let encode_h := Real.log (gt_h / anchor_h)
  let encode_w := Real.log (gt_w / anchor_w)
  (⟨encode_x, encode_y, encode_z⟩, ⟨encode_l, encode_h, encode_w⟩)

/-- `encode_log_anchor_np` (NumPy backend): `np.split` the last axis,
compute, `np.concatenate` the results. -/
noncomputable def encode_log_anchor_np (gt_ctr gt_offset anchor_ctr
    anchor_offset : Vec3) : Vec3 × Vec3 :=
  let gt_l := gt_offset.x
  let gt_h := gt_offset.y
  let gt_w := gt_offset.z
  let anchor_l := anchor_offset.x
  let anchor_h := anchor_offset.y
  let anchor_w := anchor_offset.z
  let anchor_d := norm2 anchor_l anchor_w
  let encode_x := (gt_ctr.x - anchor_ctr.x) / anchor_d
  let encode_y := (gt_ctr.y - anchor_ctr.y) / anchor_h
  let encode_z := (gt_ctr.z - anchor_ctr.z) / anchor_d
  let encode_l := Real.log (gt_l / anchor_l)
  let encode_h := Real.log (gt_h / anchor_h)
  let encode_w := Real.log (gt_w / anchor_w)
  (⟨encode_x, encode_y, encode_z⟩, ⟨encode_l, encode_h, encode_w⟩)

/-! ## Distance-anchor encoder -/

/-- `encode_dist_anchor`. -/
noncomputable def encode_dist_anchor (gt_ctr gt_offset anchor_ctr
    anchor_offset : Vec3) : Vec3 × Vec3 :=
  let encoded_ctr := Vec3.sub gt_ctr anchor_ctr
  let encoded_offset := Vec3.div (Vec3.sub gt_offset anchor_offset) anchor_offset
  (encoded_ctr, encoded_offset)

/-! ## Anchor-free distance encoder -/

/-- `encode_dist_anchor_free` (TensorFlow backend).  The
`anchor_offset=None` default argument is modelled as an explicit
`Option Vec3`. -/
noncomputable def encode_dist_anchor_free (gt_ctr gt_offset anchor_ctr : Vec3)
    (anchor_offset : Option Vec3) : Vec3 × Vec3 :=
  let target_ctr_half : Vec3 :=
    ⟨gt_offset.x / 2, gt_offset.y / 2, gt_offset.z / 2⟩
  let padding_half_height := target_ctr_half.y
  let padding_translate : Vec3 := ⟨0, padding_half_height, 0⟩
  let encoded_ctr := Vec3.sub (Vec3.sub gt_ctr padding_translate) anchor_ctr
  (encoded_ctr, target_ctr_half)

/-- `encode_dist_anchor_free_np` (NumPy backend). -/
noncomputable def encode_dist_anchor_free_np (gt_ctr gt_offset anchor_ctr : Vec3)
    (anchor_offset : Option Vec3) : Vec3 × Vec3 :=
  let target_ctr_half : Vec3 :=
    ⟨gt_offset.x / 2, gt_offset.y / 2, gt_offset.z / 2⟩
  let padding_half_height := target_ctr_half.y
  let padding_zeros : ℝ := 0
  let padding_translate : Vec3 :=
    ⟨padding_zeros, padding_half_height, padding_zeros⟩
  let encoded_ctr := Vec3.sub (Vec3.sub gt_ctr padding_translate) anchor_ctr
  (encoded_ctr, target_ctr_half)

/-! ## Claim theorems -/

/-- Claim C1, counterexample: at `angle = 15π/8`, `num_class = 4` the
residual returned by `encode_angle2class_np` is `-1/4`, which does not
lie in `[0, 1]`. -/
theorem c1_counterexample :
    encode_angle2class_np (15 * π / 8) 4 = some (0, -(1 / 4)) ∧
      ¬ ((0 : ℝ) ≤ -(1 / 4) ∧ -(1 / 4 : ℝ) ≤ 1) :=
  ⟨encode_at_fifteen_pi_div_eight, by norm_num⟩

/-- Claim C1 (amended): for every input angle and every
`num_class ≥ 1`, the residual returned by `encode_angle2class_np`
lies in `[-1/2, 1/2)`, not in `[0, 1]`. -/
theorem c1_residual_range (θ : ℝ) (n : ℕ) (c : ℤ) (r : ℝ)
    (hn : 1 ≤ n) (h : encode_angle2class_np θ n = some (c, r)) :
    -(1 / 2 : ℝ) ≤ r ∧ r < 1 / 2 := by
  rw [encode_eq_some] at h
  simp only [Option.some.injEq, Prod.mk.injEq] at h
  rw [← h.2]
  exact residualAngle_mem θ n hn

/-- Witness for C1 (amended) at `angle = 0`, `num_class = 4`. -/
theorem c1_residual_range_witness :
    -(1 / 2 : ℝ) ≤ 0 ∧ (0 : ℝ) < 1 / 2 :=
  c1_residual_range 0 4 0 0 (by norm_num) encode_at_zero

/-- Claim C2, counterexample: `encode_angle2class_np(0, 4)` does not
return residual `0.5` (it returns `(0, 0)`), and neither does
`encode_angle2class_np(π, 4)` (it returns `(2, 0)`). -/
theorem c2_counterexample :
    encode_angle2class_np 0 4 ≠ some (0, 1 / 2) ∧
      encode_angle2class_np π 4 ≠ some (2, 1 / 2) := by
  rw [encode_at_zero, encode_at_pi]
  refine ⟨fun h => ?_, fun h => ?_⟩ <;>
    · simp only [Option.some.injEq, Prod.mk.injEq] at h
      exact absurd h.2 (by norm_num)

/-- Claim C2 (amended): `encode_angle2class_np(0, 4)` returns
`class_id = 0` and residual `0`, and `encode_angle2class_np(π, 4)`
returns `class_id = 2` and residual `0`. -/
theorem c2_concrete_values :
    encode_angle2class_np 0 4 = some (0, 0) ∧
      encode_angle2class_np π 4 = some (2, 0) :=
  ⟨encode_at_zero, encode_at_pi⟩

/-- Claim C4: for every input angle and every `num_class ≥ 1`, the
class id returned by `encode_angle2class_np` is an integer in
`{0, ..., num_class - 1}`. -/
theorem c4_class_id_range (θ : ℝ) (n : ℕ) (c : ℤ) (r : ℝ)
    (hn : 1 ≤ n) (h : encode_angle2class_np θ n = some (c, r)) :
    0 ≤ c ∧ c < (n : ℤ) := by
  rw [encode_eq_some] at h
  simp only [Option.some.injEq, Prod.mk.injEq] at h
  rw [← h.1]
  exact classId_mem θ n hn

/-- Witness for C4 at `angle = π`, `num_class = 4`. -/
theorem c4_class_id_range_witness :
    (0 : ℤ) ≤ 2 ∧ (2 : ℤ) < ((4 : ℕ) : ℤ) :=
  c4_class_id_range π 4 2 0 (by norm_num) encode_at_pi

/-- Claim C5: periodicity — for every angle `θ`, integer `k` and
`num_class ≥ 1`, `encode_angle2class_np (θ + 2πk)` equals
`encode_angle2class_np θ` in both components. -/
theorem c5_periodicity (θ : ℝ) (k : ℤ) (n : ℕ) (hn : 1 ≤ n) :
    encode_angle2class_np (θ + 2 * π * (k : ℝ)) n =
      encode_angle2class_np θ n :=
  encode_angle2class_np_periodic θ k n

/-- Witness for C5 at `θ = π`, `k = 3`, `num_class = 4`. -/
theorem c5_periodicity_witness :
    encode_angle2class_np (π + 2 * π * ((3 : ℤ) : ℝ)) 4 =
      encode_angle2class_np π 4 :=
  c5_periodicity π 3 4 (by norm_num)

/-- Claim C9: the assertion in `encode_angle2class_np` (the
modulo-normalized angle lies in `[0, 2π]`) holds for every real input
angle, so the assertion-failure branch is unreachable and the function
returns normally. -/
theorem c9_assertion_unreachable (θ : ℝ) (n : ℕ) :
    angleAssert θ ∧ (encode_angle2class_np θ n).isSome = true := by
  refine ⟨⟨(angleNorm_mem θ).1, (angleNorm_mem θ).2.le⟩, ?_⟩
  rw [encode_eq_some]
  rfl

/-- Claim C10: for every input angle and every `num_class ≥ 1`, the
residual returned by `encode_angle2class_np` lies in the half-open
interval `[-1/2, 1/2)` (exact real arithmetic), i.e. it is centered on
zero rather than nonnegative. -/
theorem c10_residual_centered (θ : ℝ) (n : ℕ) (hn : 1 ≤ n) :
    ∃ c r, encode_angle2class_np θ n = some (c, r) ∧
      -(1 / 2 : ℝ) ≤ r ∧ r < 1 / 2 :=
  ⟨classId θ n, residualAngle θ n, encode_eq_some θ n,
    residualAngle_mem θ n hn⟩

/-- Witness for C10 at `angle = 15π/8`, `num_class = 4`. -/
theorem c10_residual_centered_witness :
    ∃ c r, encode_angle2class_np (15 * π / 8) 4 = some (c, r) ∧
      -(1 / 2 : ℝ) ≤ r ∧ r < 1 / 2 :=
  c10_residual_centered (15 * π / 8) 4 (by norm_num)

/-- Claim C3: for identical numeric inputs satisfying the encoders'
domain preconditions (strictly positive box dimensions), the eager
(NumPy) and graph (TensorFlow) implementations produce equal outputs:
`encode_log_anchor = encode_log_anchor_np` and
`encode_dist_anchor_free = encode_dist_anchor_free_np`. -/
theorem c3_backend_equivalence (g o a ao : Vec3) (aof : Option Vec3)
    (h1 : 0 < o.x) (h2 : 0 < o.y) (h3 : 0 < o.z)
    (h4 : 0 < ao.x) (h5 : 0 < ao.y) (h6 : 0 < ao.z) :
    encode_log_anchor g o a ao = encode_log_anchor_np g o a ao ∧
      encode_dist_anchor_free g o a aof =
        encode_dist_anchor_free_np g o a aof :=
  ⟨rfl, rfl⟩

/-- Witness for C3 at a concrete input. -/
theorem c3_backend_equivalence_witness :
    encode_log_anchor ⟨1, 2, 3⟩ ⟨2, 4, 6⟩ ⟨0, 0, 0⟩ ⟨1, 2, 3⟩ =
        encode_log_anchor_np ⟨1, 2, 3⟩ ⟨2, 4, 6⟩ ⟨0, 0, 0⟩ ⟨1, 2, 3⟩ ∧
      encode_dist_anchor_free ⟨1, 2, 3⟩ ⟨2, 4, 6⟩ ⟨0, 0, 0⟩ none =
        encode_dist_anchor_free_np ⟨1, 2, 3⟩ ⟨2, 4, 6⟩ ⟨0, 0, 0⟩ none :=
  c3_backend_equivalence ⟨1, 2, 3⟩ ⟨2, 4, 6⟩ ⟨0, 0, 0⟩ ⟨1, 2, 3⟩ none
    (show (0 : ℝ) < 2 by norm_num) (show (0 : ℝ) < 4 by norm_num)
    (show (0 : ℝ) < 6 by norm_num) (show (0 : ℝ) < 1 by norm_num)
    (show (0 : ℝ) < 2 by norm_num) (show (0 : ℝ) < 3 by norm_num)

/-- Claim C6: with strictly positive ground-truth and anchor
dimensions, the log-anchor encoder (both backends) returns
`encoded_ctr = ((gt_x - anchor_x)/anchor_d, (gt_y - anchor_y)/anchor_h,
(gt_z - anchor_z)/anchor_d)` with
`anchor_d = sqrt(anchor_l^2 + anchor_w^2)`, and
`encoded_offset = (log(gt_l/anchor_l), log(gt_h/anchor_h),
log(gt_w/anchor_w))`. -/
theorem c6_log_anchor_formula (g o a ao : Vec3)
    (h1 : 0 < o.x) (h2 : 0 < o.y) (h3 : 0 < o.z)
    (h4 : 0 < ao.x) (h5 : 0 < ao.y) (h6 : 0 < ao.z) :
    encode_log_anchor_np g o a ao =
        (⟨(g.x - a.x) / Real.sqrt (ao.x ^ 2 + ao.z ^ 2),
          (g.y - a.y) / ao.y,
          (g.z - a.z) / Real.sqrt (ao.x ^ 2 + ao.z ^ 2)⟩,
         ⟨Real.log (o.x / ao.x), Real.log (o.y / ao.y),
          Real.log (o.z / ao.z)⟩) ∧
      encode_log_anchor g o a ao =
        (⟨(g.x - a.x) / Real.sqrt (ao.x ^ 2 + ao.z ^ 2),
          (g.y - a.y) / ao.y,
          (g.z - a.z) / Real.sqrt (ao.x ^ 2 + ao.z ^ 2)⟩,
         ⟨Real.log (o.x / ao.x), Real.log (o.y / ao.y),
          Real.log (o.z / ao.z)⟩) :=
  ⟨rfl, rfl⟩

/-- Witness for C6 at a concrete input. -/
theorem c6_log_anchor_formula_witness :
    encode_log_anchor_np ⟨1, 2, 3⟩ ⟨2, 4, 6⟩ ⟨0, 0, 0⟩ ⟨1, 2, 3⟩ =
        (⟨(1 - 0) / Real.sqrt (1 ^ 2 + 3 ^ 2), (2 - 0) / 2,
          (3 - 0) / Real.sqrt (1 ^ 2 + 3 ^ 2)⟩,
         ⟨Real.log (2 / 1), Real.log (4 / 2), Real.log (6 / 3)⟩) ∧
      encode_log_anchor ⟨1, 2, 3⟩ ⟨2, 4, 6⟩ ⟨0, 0, 0⟩ ⟨1, 2, 3⟩ =
        (⟨(1 - 0) / Real.sqrt (1 ^ 2 + 3 ^ 2), (2 - 0) / 2,
          (3 - 0) / Real.sqrt (1 ^ 2 + 3 ^ 2)⟩,
         ⟨Real.log (2 / 1), Real.log (4 / 2), Real.log (6 / 3)⟩) :=
  c6_log_anchor_formula ⟨1, 2, 3⟩ ⟨2, 4, 6⟩ ⟨0, 0, 0⟩ ⟨1, 2, 3⟩
    (show (0 : ℝ) < 2 by norm_num) (show (0 : ℝ) < 4 by norm_num)
    (show (0 : ℝ) < 6 by norm_num) (show (0 : ℝ) < 1 by norm_num)
    (show (0 : ℝ) < 2 by norm_num) (show (0 : ℝ) < 3 by norm_num)

/-- Claim C7: the anchor-free encoder (both backends) returns
`target_half_offset = gt_offset / 2` exactly and
`encoded_ctr = gt_ctr - (0, gt_offset_y / 2, 0) - anchor_ctr`;
the `anchor_offset` argument has no influence on either output. -/
theorem c7_anchor_free_formula (g o a : Vec3) (ao aof : Option Vec3) :
    encode_dist_anchor_free_np g o a ao =
        (Vec3.sub (Vec3.sub g ⟨0, o.y / 2, 0⟩) a,
          ⟨o.x / 2, o.y / 2, o.z / 2⟩) ∧
      encode_dist_anchor_free g o a ao =
        (Vec3.sub (Vec3.sub g ⟨0, o.y / 2, 0⟩) a,
          ⟨o.x / 2, o.y / 2, o.z / 2⟩) ∧
      encode_dist_anchor_free_np g o a ao =
        encode_dist_anchor_free_np g o a aof ∧
      encode_dist_anchor_free g o a ao =
        encode_dist_anchor_free g o a aof :=
  ⟨rfl, rfl, rfl, rfl⟩

/-- Claim C8: with nonzero anchor dimensions, the distance-anchor
encoder returns `encoded_ctr = gt_ctr - anchor_ctr` and
`encoded_offset = (gt_offset - anchor_offset) / anchor_offset`
elementwise; when the ground truth equals the anchor, both outputs
are exactly zero. -/
theorem c8_dist_anchor_formula (g o a ao : Vec3)
    (h1 : ao.x ≠ 0) (h2 : ao.y ≠ 0) (h3 : ao.z ≠ 0) :
    encode_dist_anchor g o a ao =
        (⟨g.x - a.x, g.y - a.y, g.z - a.z⟩,
         ⟨(o.x - ao.x) / ao.x, (o.y - ao.y) / ao.y,
          (o.z - ao.z) / ao.z⟩) ∧
      (g = a → o = ao →
        encode_dist_anchor g o a ao = (⟨0, 0, 0⟩, ⟨0, 0, 0⟩)) := by
  refine ⟨rfl, ?_⟩
  rintro rfl rfl
  simp [encode_dist_anchor, Vec3.sub, Vec3.div]

/-- Witness for C8 at the spec's concrete scenario
`gt_ctr = (1,2,3)`, `anchor_ctr = (0,0,0)`, `gt_offset = (2,4,6)`,
`anchor_offset = (1,2,3)`. -/
theorem c8_dist_anchor_formula_witness :
    encode_dist_anchor ⟨1, 2, 3⟩ ⟨2, 4, 6⟩ ⟨0, 0, 0⟩ ⟨1, 2, 3⟩ =
        (⟨1 - 0, 2 - 0, 3 - 0⟩,
         ⟨(2 - 1) / 1, (4 - 2) / 2, (6 - 3) / 3⟩) ∧
      ((⟨1, 2, 3⟩ : Vec3) = ⟨0, 0, 0⟩ → (⟨2, 4, 6⟩ : Vec3) = ⟨1, 2, 3⟩ →
        encode_dist_anchor ⟨1, 2, 3⟩ ⟨2, 4, 6⟩ ⟨0, 0, 0⟩ ⟨1, 2, 3⟩ =
          (⟨0, 0, 0⟩, ⟨0, 0, 0⟩)) :=
  c8_dist_anchor_formula ⟨1, 2, 3⟩ ⟨2, 4, 6⟩ ⟨0, 0, 0⟩ ⟨1, 2, 3⟩
    (show (1 : ℝ) ≠ 0 by norm_num) (show (2 : ℝ) ≠ 0 by norm_num)
    (show (3 : ℝ) ≠ 0 by norm_num)

end AnchorEncoder
